import Mathlib

/-!
Verification of the transaction-proxy cache
(`core/lib/zksync_core/src/api_server/tx_sender/proxy.rs`).

The embedding models:
- `TxCacheInner`: the two maps guarded by one lock (`tx_cache : HashMap<H256, L2Tx>`
  and `nonces_by_account : HashMap<Address, BTreeSet<Nonce>>`). Hash maps are
  modelled as functions into `Option`; the `BTreeSet` of nonces as a `Finset Nat`
  (its ascending iteration order is recovered with `Finset.sort`).
- the cache operations `push`, `get_tx`, `get_nonces_for_account`, `remove_tx`;
- the in-memory trim step of `run_updates` (the `retain`/`split_off` body) and a
  schedule-driven model of the `run_updates` loop itself, where each tick carries
  the observed stop flag and the durable-store reply (or its failure);
- the proxy operations `next_nonce_by_initiator_account` and the local,
  pre-network part of `submit_tx` (the `expect("raw tx is absent")` on the input
  data; a panic is an explicit outcome constructor).

Keys (`H256`, `Address`) and nonces are opaque naturals; `tx.hash()` and
`tx.initiator_account()` are modelled as fields of the transaction record.
-/

/-- Transaction identity (content-derived `H256` hash), modelled as an opaque key. -/
abbrev H256 := Nat

/-- Sender address, modelled as an opaque key. -/
abbrev Address := Nat

/-- Sequence number (`Nonce`, a `u32` newtype in the source). -/
abbrev Nonce := Nat

/-- The fields of `L2Tx` consumed by this core: its hash, its initiator account,
its nonce, and the optional raw encoded input data
(`tx.common_data.input_data()`). -/
structure L2Tx where
  hash : H256
  initiator_account : Address
  nonce : Nonce
  input_data : Option (List Nat)
deriving DecidableEq

/-- `TxCacheInner`: the state under the cache lock — the identity-keyed
transaction map and the per-sender ordered set of pending nonces. -/
@[ext]
structure TxCacheInner where
  tx_cache : H256 → Option L2Tx
  nonces_by_account : Address → Option (Finset Nonce)

namespace TxCache

/-- `TxCache::push`: add `tx.nonce()` to the sender's nonce set (creating it if
absent) and record `tx` under `tx.hash()`. -/
def push (s : TxCacheInner) (tx : L2Tx) : TxCacheInner where
  tx_cache := fun h => if h = tx.hash then some tx else s.tx_cache h
  nonces_by_account := fun a =>
    if a = tx.initiator_account then
      some (insert tx.nonce ((s.nonces_by_account a).getD ∅))
    else s.nonces_by_account a

/-- `TxCache::get_tx`: point lookup, returning a clone of the stored transaction. -/
def get_tx (s : TxCacheInner) (tx_hash : H256) : Option L2Tx :=
  s.tx_cache tx_hash

/-- `TxCache::get_nonces_for_account`: a copy of the sender's nonce set, or a
fresh empty set when the sender is untracked. -/
def get_nonces_for_account (s : TxCacheInner) (account_address : Address) : Finset Nonce :=
  match s.nonces_by_account account_address with
  | some nonces => nonces
  | none => ∅

/-- `TxCache::remove_tx`: delete from `tx_cache` only; `nonces_by_account` is
intentionally untouched. -/
def remove_tx (s : TxCacheInner) (tx_hash : H256) : TxCacheInner where
  tx_cache := fun h => if h = tx_hash then none else s.tx_cache h
  nonces_by_account := s.nonces_by_account

/-- The in-memory trim step of `run_updates`: for every tracked sender, look up
its stored nonce in the durable-store reply (`unwrap_or(Nonce(0))` when absent),
keep only nonces not below it (`split_off(&stored_nonce)`), and drop the sender
when nothing is kept (the `retain` predicate). -/
def trim (s : TxCacheInner) (nonces_for_accounts : Address → Option Nonce) : TxCacheInner where
  tx_cache := s.tx_cache
  nonces_by_account := fun address =>
    match s.nonces_by_account address with
    | none => none
    | some account_nonces =>
      if account_nonces.filter
          (fun n => (nonces_for_accounts address).getD 0 ≤ n) = ∅ then none
      else some (account_nonces.filter
          (fun n => (nonces_for_accounts address).getD 0 ≤ n))

/-- Outcome of running the `run_updates` loop against a finite schedule of ticks. -/
inductive LoopResult where
  | stopped (state : TxCacheInner)
  | failed (err : String) (state : TxCacheInner)
  | running (state : TxCacheInner)

/-- `TxCache::run_updates`, driven by a schedule: each tick records the stop flag
observed at the top of that iteration and the durable-store reply for that pass
(`Except.error` when `access_storage` / `get_nonces_for_addresses` fails, which
the source propagates with `?`). The loop returns `Ok(())` when the stop flag is
set, propagates a store failure as an error without touching the cache, and
otherwise trims and continues; `running` is the state when the schedule runs out. -/
def run_updates :
    List (Bool × Except String (Address → Option Nonce)) → TxCacheInner → LoopResult
  | [], s => .running s
  | (stop_observed, store_reply) :: rest, s =>
    if stop_observed then .stopped s
    else
      match store_reply with
      | .error e => .failed e s
      | .ok nonces_for_accounts => run_updates rest (trim s nonces_for_accounts)

/-- The scan loop of `TxProxy::next_nonce_by_initiator_account`, iterating the
ranged nonces in ascending order: the source compares each ranged `nonce` with
the current `pending_nonce` (`if nonce == &pending_nonce`), increments on a
match and breaks otherwise. -/
def nextNonceScan : List Nonce → Nonce → Nonce
  | [], pending_nonce => pending_nonce
  | nonce :: rest, pending_nonce =>
    if nonce = pending_nonce then nextNonceScan rest (pending_nonce + 1)
    else pending_nonce

/-- `TxProxy::next_nonce_by_initiator_account`: start the candidate at
`current_nonce`, iterate the cached nonces in `range(pending_nonce + 1..)`
(modelled as the ascending sort of the nonces `≥ current_nonce + 1`), and run
the scan loop. -/
def next_nonce_by_initiator_account
    (s : TxCacheInner) (account_address : Address) (current_nonce : Nonce) : Nonce :=
  nextNonceScan
    (((get_nonces_for_account s account_address).filter
        (fun n => current_nonce + 1 ≤ n)).sort (· ≤ ·))
    current_nonce

/-- Local outcome of `TxProxy::submit_tx` before any network interaction:
either the `expect("raw tx is absent")` panics, or the raw bytes are handed to
`send_raw_transaction` together with the transaction hash. -/
inductive SubmitOutcome where
  | panicked
  | forwards (raw_tx : List Nat) (tx_hash : H256)
deriving DecidableEq

/-- The pre-network part of `TxProxy::submit_tx`:
`tx.common_data.input_data().expect("raw tx is absent")` — a missing input is a
panic, a present input is forwarded as raw bytes keyed by `tx.hash()`. -/
def submit_tx (tx : L2Tx) : SubmitOutcome :=
  match tx.input_data with
  | none => .panicked
  | some input_data => .forwards input_data tx.hash

/-- The cache state at process start: both maps empty. -/
def emptyCache : TxCacheInner where
  tx_cache := fun _ => none
  nonces_by_account := fun _ => none

end TxCache

/-- One cache-state transition: an insert, a point lookup (state-neutral), a
nonce-set lookup (state-neutral), a point removal, or one reconciliation trim
against a durable-store reply. -/
inductive CacheOp where
  | pushOp (tx : L2Tx)
  | lookupOp (tx_hash : H256)
  | lookupNoncesOp (account_address : Address)
  | removeOp (tx_hash : H256)
  | trimOp (nonces_for_accounts : Address → Option Nonce)

/-- Apply one operation to the cache state. -/
def applyOp (s : TxCacheInner) : CacheOp → TxCacheInner
  | .pushOp tx => TxCache.push s tx
  | .lookupOp _ => s
  | .lookupNoncesOp _ => s
  | .removeOp h => TxCache.remove_tx s h
  | .trimOp m => TxCache.trim s m

/-- Apply a sequence of operations, left to right. -/
def applyOps (s : TxCacheInner) (ops : List CacheOp) : TxCacheInner :=
  ops.foldl applyOp s

/-! ## Helper lemmas -/

/-- If every scanned nonce is at least `pending_nonce + 1`, the scan loop breaks
on its first element (or the list is empty) and returns `pending_nonce`. -/
theorem nextNonceScan_of_all_above (l : List Nonce) (pending_nonce : Nonce)
    (hl : ∀ m ∈ l, pending_nonce + 1 ≤ m) :
    TxCache.nextNonceScan l pending_nonce = pending_nonce := by
  cases l with
  | nil => rfl
  | cons n rest =>
    have hn := hl n (List.mem_cons_self n rest)
    have hne : ¬ n = pending_nonce := (Nat.lt_of_succ_le hn).ne'
    simp [TxCache.nextNonceScan, hne]

/-- The ranged scan of `next_nonce_by_initiator_account` only ever sees nonces
strictly above the candidate, so the function returns `current_nonce` for every
state, sender and baseline. -/
theorem next_nonce_eq_current (s : TxCacheInner) (a : Address) (n : Nonce) :
    TxCache.next_nonce_by_initiator_account s a n = n := by
  unfold TxCache.next_nonce_by_initiator_account
  apply nextNonceScan_of_all_above
  intro m hm
  rw [Finset.mem_sort] at hm
  exact (Finset.mem_filter.mp hm).2

/-- Preservation of the no-empty-sets invariant by a single cache operation. -/
theorem applyOp_no_empty (s : TxCacheInner)
    (hs : ∀ a ns, s.nonces_by_account a = some ns → ns ≠ ∅) (op : CacheOp) :
    ∀ a ns, (applyOp s op).nonces_by_account a = some ns → ns ≠ ∅ := by
  cases op with
  | pushOp tx =>
    intro a ns h
    by_cases ha : a = tx.initiator_account
    · simp only [applyOp, TxCache.push, ha, if_pos rfl] at h
      cases h
      exact Finset.insert_ne_empty _ _
    · simp only [applyOp, TxCache.push, if_neg ha] at h
      exact hs a ns h
  | lookupOp h => exact hs
  | lookupNoncesOp a => exact hs
  | removeOp h => exact hs
  | trimOp m =>
    intro a ns h
    simp only [applyOp, TxCache.trim] at h
    split at h
    next => exact absurd h (by simp)
    next account_nonces heq =>
      split at h
      next hemp => exact absurd h (by simp)
      next hemp =>
        cases h
        exact hemp

/-- Preservation of the no-empty-sets invariant by a whole operation sequence. -/
theorem applyOps_no_empty (ops : List CacheOp) :
    ∀ s : TxCacheInner, (∀ a ns, s.nonces_by_account a = some ns → ns ≠ ∅) →
      ∀ a ns, (applyOps s ops).nonces_by_account a = some ns → ns ≠ ∅ := by
  induction ops with
  | nil => intro s hs; exact hs
  | cons op rest ih =>
    intro s hs
    exact ih (applyOp s op) (applyOp_no_empty s hs op)

/-! ## Concrete fixtures used by claim theorems and witnesses -/

/-- Cache state with sender 1 tracking pending nonces {5, 6, 8} (the spec's P4
scenario, persisted baseline 4). -/
def c1State : TxCacheInner where
  tx_cache := fun _ => none
  nonces_by_account := fun a => if a = 1 then some ({5, 6, 8} : Finset Nonce) else none

/-- Cache state with sender 1 tracking pending nonces {10, 11, 13} (the spec's
P7 scenario, persisted baseline 9). -/
def c1StateB : TxCacheInner where
  tx_cache := fun _ => none
  nonces_by_account := fun a => if a = 1 then some ({10, 11, 13} : Finset Nonce) else none

/-- Cache state with sender 1 tracking pending nonces {3, 4, 7, 9} (the spec's
P3 scenario). -/
def c2State : TxCacheInner where
  tx_cache := fun _ => none
  nonces_by_account := fun a => if a = 1 then some ({3, 4, 7, 9} : Finset Nonce) else none

/-- Durable-store reply reporting watermark 6 for sender 1. -/
def storedAt6 : Address → Option Nonce := fun a => if a = 1 then some 6 else none

/-- Durable-store reply reporting watermark 10 for sender 1. -/
def storedAt10 : Address → Option Nonce := fun a => if a = 1 then some 10 else none

/-- A transaction carrying no raw encoded input data. -/
def txNoRaw : L2Tx := { hash := 1, initiator_account := 1, nonce := 5, input_data := none }

/-- A transaction carrying raw encoded input data `[0, 1]`. -/
def txRaw : L2Tx := { hash := 2, initiator_account := 1, nonce := 6, input_data := some [0, 1] }

/-! ## Claim theorems -/

/-- Claim C1 (refuted; the code contradicts its own inline comment). The scan of
`next_nonce_by_initiator_account` ranges over nonces `≥ pending_nonce + 1` but
compares each of them with the unincremented `pending_nonce`, so the comparison
never succeeds and the loop breaks on its first element. The function therefore
always returns `current_nonce` unchanged: pending set {5, 6, 8} with baseline 4
yields 4 (the claim says 6), pending set {10, 11, 13} with baseline 9 yields 9
(the claim says 11), and in general no state, sender or baseline ever advances. -/
theorem c1_next_nonce_never_advances :
    TxCache.next_nonce_by_initiator_account c1State 1 4 = 4 ∧
    TxCache.next_nonce_by_initiator_account c1StateB 1 9 = 9 ∧
    ∀ (s : TxCacheInner) (a : Address) (n : Nonce),
      TxCache.next_nonce_by_initiator_account s a n = n :=
  ⟨next_nonce_eq_current c1State 1 4, next_nonce_eq_current c1StateB 1 9,
    next_nonce_eq_current⟩

/-- Claim C2: one reconciliation trim step maps a tracked sender's pending set
to its subset of nonces not strictly below the durable-store watermark (0 when
the reply omits the sender), keeping the sender exactly when that subset is
non-empty; membership in the trimmed set is membership in the old set together
with not being below the watermark. -/
theorem c2_trim_splits_at_watermark (s : TxCacheInner)
    (nonces_for_accounts : Address → Option Nonce) (a : Address) (ns : Finset Nonce)
    (h : s.nonces_by_account a = some ns) :
    ((TxCache.trim s nonces_for_accounts).nonces_by_account a =
      if ns.filter (fun n => (nonces_for_accounts a).getD 0 ≤ n) = ∅ then none
      else some (ns.filter (fun n => (nonces_for_accounts a).getD 0 ≤ n))) ∧
    ∀ m : Nonce,
      m ∈ ns.filter (fun n => (nonces_for_accounts a).getD 0 ≤ n) ↔
        m ∈ ns ∧ ¬ m < (nonces_for_accounts a).getD 0 := by
  constructor
  · simp only [TxCache.trim, h]
  · intro m
    simp [Finset.mem_filter, Nat.not_lt]

/-- Witness for C2, at the spec's P3 scenario: pending set {3, 4, 7, 9} with
watermark 6 becomes exactly {7, 9}, and with watermark 10 the sender is dropped. -/
theorem c2_trim_splits_at_watermark_witness :
    c2State.nonces_by_account 1 = some ({3, 4, 7, 9} : Finset Nonce) ∧
    (TxCache.trim c2State storedAt6).nonces_by_account 1 = some ({7, 9} : Finset Nonce) ∧
    (TxCache.trim c2State storedAt10).nonces_by_account 1 = none := by
  refine ⟨rfl, ?_, ?_⟩
  · rw [(c2_trim_splits_at_watermark c2State storedAt6 1 ({3, 4, 7, 9} : Finset Nonce) rfl).1]
    decide
  · rw [(c2_trim_splits_at_watermark c2State storedAt10 1 ({3, 4, 7, 9} : Finset Nonce) rfl).1]
    decide

/-- Claim C3: `remove_tx` never modifies `nonces_by_account` for any state and
hash; in particular, after `push tx` then `remove_tx tx.hash`, the point lookup
by `tx.hash` is `none` while the sender's nonce set still contains `tx.nonce`. -/
theorem c3_remove_only_touches_tx_cache :
    (∀ (s : TxCacheInner) (tx_hash : H256),
      (TxCache.remove_tx s tx_hash).nonces_by_account = s.nonces_by_account) ∧
    ∀ (s : TxCacheInner) (tx : L2Tx),
      TxCache.get_tx (TxCache.remove_tx (TxCache.push s tx) tx.hash) tx.hash = none ∧
      tx.nonce ∈ TxCache.get_nonces_for_account
        (TxCache.remove_tx (TxCache.push s tx) tx.hash) tx.initiator_account := by
  refine ⟨fun s tx_hash => rfl, fun s tx => ⟨?_, ?_⟩⟩
  · simp [TxCache.get_tx, TxCache.remove_tx]
  · simp [TxCache.get_nonces_for_account, TxCache.remove_tx, TxCache.push]

/-- Claim C4: for every cache state, after `push tx` the point lookup by
`tx.hash` returns `some tx` (an equal copy) and the sender's nonce set contains
`tx.nonce`; `push` is total, with no error outcome. -/
theorem c4_insert_then_lookup :
    ∀ (s : TxCacheInner) (tx : L2Tx),
      TxCache.get_tx (TxCache.push s tx) tx.hash = some tx ∧
      tx.nonce ∈ TxCache.get_nonces_for_account (TxCache.push s tx) tx.initiator_account := by
  intro s tx
  constructor
  · simp [TxCache.get_tx, TxCache.push]
  · simp [TxCache.get_nonces_for_account, TxCache.push]

/-- Claim C5: `push` is idempotent — pushing the same transaction twice yields
exactly the state of pushing it once (the identity entry is overwritten with an
equal value and the nonce insert is absorbed), so in particular the sender's
nonce-set size is unchanged by the second push. -/
theorem c5_insert_idempotent :
    ∀ (s : TxCacheInner) (tx : L2Tx),
      TxCache.push (TxCache.push s tx) tx = TxCache.push s tx ∧
      (TxCache.get_nonces_for_account (TxCache.push (TxCache.push s tx) tx)
          tx.initiator_account).card =
        (TxCache.get_nonces_for_account (TxCache.push s tx) tx.initiator_account).card := by
  intro s tx
  have hmain : TxCache.push (TxCache.push s tx) tx = TxCache.push s tx := by
    refine TxCacheInner.ext ?_ ?_
    · funext h
      by_cases hh : h = tx.hash <;> simp [TxCache.push, hh]
    · funext a
      by_cases ha : a = tx.initiator_account <;>
        simp [TxCache.push, ha, Finset.insert_idem]
  exact ⟨hmain, by rw [hmain]⟩

/-- Claim C6: an untracked sender yields the empty nonce set from
`get_nonces_for_account` and leaves `next_nonce_by_initiator_account` at the
given baseline; both operations are total functions with no failure outcome. -/
theorem c6_untracked_sender (s : TxCacheInner) (a : Address) (n : Nonce)
    (h : s.nonces_by_account a = none) :
    TxCache.get_nonces_for_account s a = ∅ ∧
    TxCache.next_nonce_by_initiator_account s a n = n := by
  constructor
  · simp [TxCache.get_nonces_for_account, h]
  · exact next_nonce_eq_current s a n

/-- Witness for C6, at the empty cache with sender 0 and baseline 4. -/
theorem c6_untracked_sender_witness :
    TxCache.emptyCache.nonces_by_account 0 = none ∧
    (TxCache.get_nonces_for_account TxCache.emptyCache 0 = ∅ ∧
     TxCache.next_nonce_by_initiator_account TxCache.emptyCache 0 4 = 4) :=
  ⟨rfl, c6_untracked_sender TxCache.emptyCache 0 4 rfl⟩

/-- Claim C7: when the iteration begins (stop flag not set) and the
durable-store query of that pass fails, `run_updates` returns the failure to its
caller with the cache state exactly as it was — no trim happens in that pass,
whatever later ticks the schedule holds. -/
theorem c7_store_failure_propagates :
    ∀ (rest : List (Bool × Except String (Address → Option Nonce)))
      (s : TxCacheInner) (e : String),
      TxCache.run_updates ((false, Except.error e) :: rest) s =
        TxCache.LoopResult.failed e s := by
  intro rest s e
  rfl

/-- Claim C8: whenever the stop flag is observed set at the top of an iteration,
`run_updates` returns the normal `stopped` result with the cache state
untouched, regardless of that tick's store reply and of any remaining ticks —
no snapshot, query or trim of that iteration takes place. -/
theorem c8_shutdown_checked_first :
    ∀ (rest : List (Bool × Except String (Address → Option Nonce)))
      (s : TxCacheInner) (store_reply : Except String (Address → Option Nonce)),
      TxCache.run_updates ((true, store_reply) :: rest) s =
        TxCache.LoopResult.stopped s := by
  intro rest s store_reply
  rfl

/-- Claim C9: `submit_tx` panics (the `expect` on the missing input data)
exactly when the transaction carries no raw encoded form, and forwards the raw
bytes keyed by the transaction hash whenever they are present. -/
theorem c9_submit_panics_without_raw (tx : L2Tx) :
    (TxCache.submit_tx tx = TxCache.SubmitOutcome.panicked ↔ tx.input_data = none) ∧
    ∀ d : List Nat, tx.input_data = some d →
      TxCache.submit_tx tx = TxCache.SubmitOutcome.forwards d tx.hash := by
  constructor
  · cases hd : tx.input_data <;> simp [TxCache.submit_tx, hd]
  · intro d hd
    simp [TxCache.submit_tx, hd]

/-- Witness for C9: a transaction without raw input panics, one carrying raw
bytes `[0, 1]` is forwarded with them. -/
theorem c9_submit_panics_without_raw_witness :
    (txNoRaw.input_data = none ∧
      TxCache.submit_tx txNoRaw = TxCache.SubmitOutcome.panicked) ∧
    (txRaw.input_data = some [0, 1] ∧
      TxCache.submit_tx txRaw = TxCache.SubmitOutcome.forwards [0, 1] txRaw.hash) :=
  ⟨⟨rfl, ((c9_submit_panics_without_raw txNoRaw).1).mpr rfl⟩,
   ⟨rfl, (c9_submit_panics_without_raw txRaw).2 [0, 1] rfl⟩⟩

/-- Claim C10: starting from the empty cache, after any sequence of insert,
lookup, point-removal and reconciliation-trim operations, every sender present
as a key in `nonces_by_account` maps to a non-empty nonce set. -/
theorem c10_no_empty_nonce_sets (ops : List CacheOp) (a : Address) (ns : Finset Nonce)
    (h : (applyOps TxCache.emptyCache ops).nonces_by_account a = some ns) :
    ns ≠ ∅ := by
  refine applyOps_no_empty ops TxCache.emptyCache ?_ a ns h
  intro b ms hb
  exact absurd hb (by simp [TxCache.emptyCache])

/-- Witness for C10: pushing one transaction from the empty cache leaves its
sender mapped to the non-empty set {5}. -/
theorem c10_no_empty_nonce_sets_witness :
    (applyOps TxCache.emptyCache [CacheOp.pushOp txNoRaw]).nonces_by_account 1 =
      some ({5} : Finset Nonce) ∧ ({5} : Finset Nonce) ≠ ∅ :=
  ⟨by decide, c10_no_empty_nonce_sets [CacheOp.pushOp txNoRaw] 1 {5} (by decide)⟩
